import Mathlib

/-
Verification development for the exfits marshalling layer
(src/c_src/exfits_nif.c and src/c_src/write_fits.c).

The C code is a BEAM NIF that marshals Erlang terms into calls to the
external cfitsio library.  The shallow embedding below models:
  * the Erlang terms the NIF inspects (atoms, integers, floats, binaries,
    lists, and a catch-all for everything else), together with the
    enif_* accessors the NIF uses, with their documented success
    conditions;
  * the external cfitsio library as a pure state machine over an abstract
    filesystem (a finite association of path names to FITS files), with
    the documented behaviour of the handful of entry points the NIF
    calls (create fails on an existing file, create-image validates
    BITPIX and rejects negative axis lengths, update-key validates the
    keyword characters, ...) and cfitsio's numeric status codes;
  * the NIF functions themselves (read_image, write_image,
    write_header_cards, write_fits_file and the header-value classifier
    inside read_header), translated line by line from the C source.

Machine arithmetic: `width` and `height` are C `long` values (modelled as
unbounded Int with the signed-64-bit range made explicit where the NIF's
enif_get_long can produce them); the size comparison
`width * height * sizeof(float) != bin_data.size` converts the signed
product to `size_t`, i.e. reduces it modulo 2^64, which the embedding
performs explicitly.  IEEE-754 float payloads are kept as raw bit
patterns (the NIF never computes with them; it only moves bytes).
-/

namespace ExFITS

/-- One stored FITS header value, as produced by fits_update_key:
a signed long (TLONG), a double (TDOUBLE, kept as its raw 64-bit payload
since the NIF only forwards it), or a character string (TSTRING). -/
inductive HVal where
  | hlong : Int → HVal
  | hdouble : Nat → HVal
  | hstr : List Nat → HVal
  deriving DecidableEq, Repr

/-- Model of the Erlang terms the NIF inspects: atoms, integers (including
bignums), floats (payload kept as the raw IEEE-754 bit pattern), binaries
(byte sequences), lists of terms, and a catch-all for every other term
kind (tuples, pids, refs, ...). -/
inductive ErlTerm where
  | atom : String → ErlTerm
  | int : Int → ErlTerm
  | float : Nat → ErlTerm
  | binary : List Nat → ErlTerm
  | list : List ErlTerm → ErlTerm
  | other : ErlTerm

/-- One FITS file as the NIF-visible cfitsio operations determine it:
the image format code (BITPIX), the axis lengths (NAXIS / NAXISn), the
raw data bytes, and the non-structural header keys written through
fits_update_key (the structural keys SIMPLE/BITPIX/NAXIS* are derived
from the first three fields, as cfitsio derives them from the image). -/
structure FitsFile where
  bitpix : Int
  naxes : List Int
  pixels : List Nat
  header : List (String × HVal)
  deriving DecidableEq, Repr

/-- The filesystem: an association of path names to FITS files. -/
abbrev FS := List (String × FitsFile)

/-- Look a path up in the filesystem (first match). -/
def fsLookup : FS → String → Option FitsFile
  | [], _ => none
  | (p, f) :: rest, q => if p = q then some f else fsLookup rest q

/-- Replace the (first) file stored at a path. -/
def fsUpdate : FS → String → FitsFile → FS
  | [], _, _ => []
  | (p, f) :: rest, q, g => if p = q then (q, g) :: rest else (p, f) :: fsUpdate rest q g

/-- C remove(): delete the file at a path, if any. -/
def fsRemove (fs : FS) (path : String) : FS :=
  fs.filter (fun e => e.1 ≠ path)

/-- Outcome of a NIF write entry point: the atom ok, a badarg exception,
an {error, Status} tuple with cfitsio's numeric status, or an
{error, Atom} tuple with a symbolic reason. -/
inductive WResult where
  | ok : WResult
  | badarg : WResult
  | errCode : Int → WResult
  | errAtom : String → WResult
  deriving DecidableEq, Repr

/-- Outcome of read_image: {ok, {Width, Height, Bytes}}, a badarg
exception, or an {error, Status} tuple. -/
inductive RResult where
  | rok : Int → Int → List Nat → RResult
  | rbadarg : RResult
  | rerr : Int → RResult
  deriving DecidableEq, Repr

/- ===== enif accessor layer (documented ERTS behaviour) ===== -/

/-- cfitsio FLEN_KEYWORD: size of the key_str buffer in the NIF. -/
def flenKeyword : Nat := 75

/-- cfitsio FLEN_VALUE: size of the value_str buffer in the NIF. -/
def flenValue : Nat := 71

/-- enif_get_atom into a buffer of FLEN_KEYWORD bytes: succeeds exactly on
atom terms whose text plus the terminating NUL fits the buffer. -/
def enifGetAtom : ErlTerm → Option String
  | .atom s => if s.length + 1 ≤ flenKeyword then some s else none
  | _ => none

/-- enif_is_number: true on integers and floats. -/
def erlIsNumber : ErlTerm → Bool
  | .int _ => true
  | .float _ => true
  | _ => false

/-- enif_is_binary. -/
def erlIsBinary : ErlTerm → Bool
  | .binary _ => true
  | _ => false

/-- enif_is_list. -/
def erlIsList : ErlTerm → Bool
  | .list _ => true
  | _ => false

/-- enif_get_long: succeeds exactly on integer terms that fit a signed
64-bit C long; it does not convert floats or bignums. -/
def enifGetLong : ErlTerm → Option Int
  | .int n => if -(2 ^ 63) ≤ n ∧ n < 2 ^ 63 then some n else none
  | _ => none

/-- enif_get_double: succeeds exactly on float terms (no conversion from
integers). -/
def enifGetDouble : ErlTerm → Option Nat
  | .float p => some p
  | _ => none

/-- The Latin-1 byte list denoted by an Erlang list, when every element is
an integer in 0..255 (the precondition of enif_get_string). -/
def charListOf : List ErlTerm → Option (List Nat)
  | [] => some []
  | .int n :: rest =>
      if 0 ≤ n ∧ n < 256 then (charListOf rest).map (fun cs => n.toNat :: cs) else none
  | _ :: _ => none

/-- enif_get_string into a buffer of FLEN_VALUE bytes, with the NIF's
`> 0` success test: succeeds exactly on proper lists of Latin-1 character
codes whose length plus the terminating NUL fits the buffer.  In
particular it fails on every binary term. -/
def enifGetString : ErlTerm → Option (List Nat)
  | .list ts =>
      match charListOf ts with
      | some cs => if cs.length + 1 ≤ flenValue then some cs else none
      | none => none
  | _ => none

/- ===== cfitsio model (documented library contract, spec section 6) ===== -/

/-- cfitsio status FILE_NOT_OPENED. -/
def statusFileNotOpened : Int := 104

/-- cfitsio status FILE_NOT_CREATED (in particular: the file already
exists when fits_create_file is called on a plain path). -/
def statusFileNotCreated : Int := 105

/-- cfitsio status WRITE_ERROR: used by the model where the C call would
read past the end of the caller's buffer (undefined behaviour in C; the
model only relies on the state reached before this point). -/
def statusWriteError : Int := 106

/-- cfitsio status END_OF_FILE (read past the stored data). -/
def statusEndOfFile : Int := 107

/-- cfitsio status BAD_KEYCHAR: keyword name contains an illegal
character. -/
def statusBadKeychar : Int := 207

/-- cfitsio status BAD_BITPIX. -/
def statusBadBitpix : Int := 212

/-- cfitsio status BAD_NAXES: an axis length is negative. -/
def statusBadNaxes : Int := 213

/-- The file a fresh fits_create_file produces before any image is
allocated in it: an empty primary HDU. -/
def emptyFits : FitsFile :=
  { bitpix := 8, naxes := [], pixels := [], header := [] }

/-- fits_create_file on a literal path: fails with FILE_NOT_CREATED when
the file already exists, otherwise creates an empty file on disk.
(cfitsio's special filename syntax, e.g. a leading exclamation mark,
is not used by this codebase and is not modelled.) -/
def fitsCreateFile (fs : FS) (path : String) : Except Int FS :=
  match fsLookup fs path with
  | some _ => .error statusFileNotCreated
  | none => .ok ((path, emptyFits) :: fs)

/-- fits_create_img: validates BITPIX against the six legal codes, then
rejects any negative axis length with BAD_NAXES (axis length 0 is legal),
then records the image shape in the file. -/
def fitsCreateImg (f : FitsFile) (bitpix : Int) (naxes : List Int) : Except Int FitsFile :=
  if bitpix = 8 ∨ bitpix = 16 ∨ bitpix = 32 ∨ bitpix = 64 ∨ bitpix = -32 ∨ bitpix = -64 then
    if ∀ a ∈ naxes, (0 : Int) ≤ a then
      .ok { f with bitpix := bitpix, naxes := naxes, pixels := [] }
    else .error statusBadNaxes
  else .error statusBadBitpix

/-- fits_write_pix with type TFLOAT: stores the first nelem 4-byte
samples of the caller's buffer.  When the buffer holds fewer than nelem
samples the C call would read out of bounds; the model stops with a
write-error status at that point. -/
def fitsWritePix (f : FitsFile) (nelem : Int) (data : List Nat) : Except Int FitsFile :=
  if 4 * nelem.toNat ≤ data.length then
    .ok { f with pixels := data.take (4 * nelem.toNat) }
  else .error statusWriteError

/-- A legal FITS keyword character: uppercase letter, digit, hyphen or
underscore (cfitsio fftkey). -/
def validKeyChar (c : Char) : Prop :=
  (65 ≤ c.toNat ∧ c.toNat ≤ 90) ∨ (48 ≤ c.toNat ∧ c.toNat ≤ 57) ∨ c.toNat = 45 ∨ c.toNat = 95

instance (c : Char) : Decidable (validKeyChar c) := by
  unfold validKeyChar; infer_instance

/-- Update-or-append in a header association list. -/
def assocUpdate : List (String × HVal) → String → HVal → List (String × HVal)
  | [], k, v => [(k, v)]
  | (k0, v0) :: rest, k, v =>
      if k0 = k then (k, v) :: rest else (k0, v0) :: assocUpdate rest k v

/-- Header association lookup (first match). -/
def assocLookup : List (String × HVal) → String → Option HVal
  | [], _ => none
  | (k0, v0) :: rest, k => if k0 = k then some v0 else assocLookup rest k

/-- fits_update_key: rejects a keyword containing an illegal character
with BAD_KEYCHAR, otherwise replaces or appends the key's card. -/
def fitsUpdateKey (f : FitsFile) (k : String) (v : HVal) : Except Int FitsFile :=
  if ∀ c ∈ k.toList, validKeyChar c then
    .ok { f with header := assocUpdate f.header k v }
  else .error statusBadKeychar

/- ===== the NIF functions ===== -/

/-- The structural keywords both header-writing loops refuse to touch
(exfits_nif.c line 309 and write_fits.c line 224). -/
def skipKeys : List String :=
  ["SIMPLE", "BITPIX", "NAXIS", "NAXIS1", "NAXIS2", "NAXIS3", "END"]

/-- The dimension test of write_image (exfits_nif.c line 119) and
write_fits_file (write_fits.c line 151):
`width * height * sizeof(float) != bin_data.size`.
The signed long product is converted to size_t for the comparison, i.e.
reduced modulo 2^64. -/
def sizeMismatch (w h : Int) (len : Nat) : Prop :=
  ((w * h * 4) % (2 ^ 64 : Int)).toNat ≠ len

instance (w h : Int) (len : Nat) : Decidable (sizeMismatch w h len) := by
  unfold sizeMismatch; infer_instance

/-- One iteration of the header-map loop shared (textually duplicated) by
write_header_cards (exfits_nif.c lines 312-386) and the header stage of
write_fits_file (write_fits.c lines 236-292), for one map entry: it
returns the file after the entry and the warnings (key/status pairs)
this entry printed to stderr, the diagnostic sink.
The key must be an atom fitting the FLEN_KEYWORD buffer, structural keys
are skipped, then the value dispatches: number → enif_get_long else
enif_get_double; binary or list → enif_get_string (which fails on
binaries); anything else falls through silently.  A failing
fits_update_key only appends a warning; the loop state is otherwise
unchanged.  (The `if (status > 0) break` in exfits_nif.c is dead: the
loop never writes the outer status, so the plain fold is faithful.) -/
def headerEntryStep (f : FitsFile) (e : ErlTerm × ErlTerm) :
    FitsFile × List (String × Int) :=
  match enifGetAtom e.1 with
  | none => (f, [])
  | some k =>
    if k ∈ skipKeys then (f, [])
    else if erlIsNumber e.2 then
      match enifGetLong e.2 with
      | some n =>
          match fitsUpdateKey f k (.hlong n) with
          | .ok f2 => (f2, [])
          | .error st => (f, [(k, st)])
      | none =>
          match enifGetDouble e.2 with
          | some p =>
              match fitsUpdateKey f k (.hdouble p) with
              | .ok f2 => (f2, [])
              | .error st => (f, [(k, st)])
          | none => (f, [])
    else if erlIsBinary e.2 || erlIsList e.2 then
      match enifGetString e.2 with
      | some cs =>
          match fitsUpdateKey f k (.hstr cs) with
          | .ok f2 => (f2, [])
          | .error st => (f, [(k, st)])
      | none => (f, [])
    else (f, [])

/-- The loop body with the diagnostic sink threaded through: the file
evolves by headerEntryStep and the step's warnings are appended to those
of the earlier iterations (the C loop writes them to stderr as it goes). -/
def applyHeaderEntry (acc : FitsFile × List (String × Int)) (e : ErlTerm × ErlTerm) :
    FitsFile × List (String × Int) :=
  ((headerEntryStep acc.1 e).1, acc.2 ++ (headerEntryStep acc.1 e).2)

/-- write_image (exfits_nif.c lines 81-152), with the BITPIX argument
explicit; the 4-argument Erlang arity passes -32 (FLOAT_IMG).  Returns
the NIF result and the filesystem after the call.  The filename must fit
the 1024-byte buffer; then the dimension test runs before any filesystem
access; then create-file (failing if the path exists), create-image,
write-pixels; every error path closes the file and returns the cfitsio
status, leaving whatever was already created on disk. -/
def write_image (fs : FS) (path : String) (data : List Nat) (w h : Int) (bitpix : Int) :
    WResult × FS :=
  if 1024 ≤ path.length then (.badarg, fs)
  else if sizeMismatch w h data.length then (.errAtom ("dimensions_mismatch"), fs)
  else
    match fitsCreateFile fs path with
    | .error st => (.errCode st, fs)
    | .ok fs1 =>
      match fitsCreateImg emptyFits bitpix [w, h] with
      | .error st => (.errCode st, fs1)
      | .ok f1 =>
        match fitsWritePix f1 (w * h) data with
        | .error st => (.errCode st, fsUpdate fs1 path f1)
        | .ok f2 => (.ok, fsUpdate fs1 path f2)

/-- read_image (exfits_nif.c lines 26-79): open read-only (104 when the
path does not exist), query the image parameters with maxdim 2, fail when
the stored axis count is not exactly 2 — at that point the cfitsio status
is still 0, so the returned tuple is {error, 0} — else read all
width*height samples as 32-bit floats and return them with the
dimensions. -/
def read_image (fs : FS) (path : String) : RResult :=
  if 1024 ≤ path.length then .rbadarg
  else
    match fsLookup fs path with
    | none => .rerr statusFileNotOpened
    | some f =>
      match f.naxes with
      | [a, b] =>
          if 4 * (a * b).toNat ≤ f.pixels.length then
            .rok a b (f.pixels.take (4 * (a * b).toNat))
          else .rerr statusEndOfFile
      | _ => .rerr 0

/-- write_header_cards (exfits_nif.c lines 253-397): filename check, then
an fopen probe returning the atom file_not_found when the path does not
exist, then open READWRITE and fold the header map through
applyHeaderEntry; the loop cannot set the outer status, so the call ends
with ok and the per-key warnings on the diagnostic sink.  (The Erlang map
is modelled as the list of its pairs in iteration order.) -/
def write_header_cards (fs : FS) (path : String) (entries : List (ErlTerm × ErlTerm)) :
    WResult × FS × List (String × Int) :=
  if 1024 ≤ path.length then (.badarg, fs, [])
  else
    match fsLookup fs path with
    | none => (.errAtom ("file_not_found"), fs, [])
    | some f =>
      let r := entries.foldl applyHeaderEntry (f, [])
      (.ok, fsUpdate fs path r.1, r.2)

/-- write_fits_file (write_fits.c lines 98-308): filename check, then the
dimension test (before any filesystem access), then remove() of any
pre-existing file, create-file (now always on a fresh path),
create-image, write-pixels, then — when the sixth argument is given — the
same header fold as write_header_cards, and ok.  The stderr debug dumps
have no effect on the result or the filesystem and are not modelled. -/
def write_fits_file (fs : FS) (path : String) (data : List Nat) (w h : Int)
    (bitpix : Int) (hdr : Option (List (ErlTerm × ErlTerm))) :
    WResult × FS × List (String × Int) :=
  if 1024 ≤ path.length then (.badarg, fs, [])
  else if sizeMismatch w h data.length then (.errAtom ("dimensions_mismatch"), fs, [])
  else
    let fs0 := fsRemove fs path
    let fs1 := (path, emptyFits) :: fs0
    match fitsCreateImg emptyFits bitpix [w, h] with
    | .error st => (.errCode st, fs1, [])
    | .ok f1 =>
      match fitsWritePix f1 (w * h) data with
      | .error st => (.errCode st, fsUpdate fs1 path f1, [])
      | .ok f2 =>
        match hdr with
        | none => (.ok, fsUpdate fs1 path f2, [])
        | some entries =>
          let r := entries.foldl applyHeaderEntry (f2, [])
          (.ok, fsUpdate fs1 path r.1, r.2)

/- ===== the header-value classifier of read_header ===== -/

/-- The quote character (ASCII 39). -/
def quoteChar : Char := Char.ofNat 39

/-- The decimal-point character (ASCII 46). -/
def dotChar : Char := Char.ofNat 46

/-- A C isspace character in the default locale (used by strtol's
leading-whitespace skip). -/
def isSpaceC (c : Char) : Prop :=
  c.toNat = 32 ∨ c.toNat = 9 ∨ c.toNat = 10 ∨ c.toNat = 11 ∨ c.toNat = 12 ∨ c.toNat = 13

instance (c : Char) : Decidable (isSpaceC c) := by
  unfold isSpaceC; infer_instance

/-- An ASCII decimal digit. -/
def isDigitC (c : Char) : Prop := 48 ≤ c.toNat ∧ c.toNat ≤ 57

instance (c : Char) : Decidable (isDigitC c) := by
  unfold isDigitC; infer_instance

/-- The natural number denoted by a digit sequence. -/
def digitsVal (ds : List Char) : Nat :=
  ds.foldl (fun a c => a * 10 + (c.toNat - 48)) 0

/-- strtol(value, &endptr, 10): skip C whitespace, read an optional sign
and a digit run; result is the signed value together with the index
endptr points at — the index just past the digits, or 0 (the original
pointer) when no digit was consumed.  (The LONG_MAX/LONG_MIN clamping on
overflow is immaterial to the header fields this codebase reads and is
not modelled.) -/
def strtolModel (cs : List Char) : Int × Nat :=
  let sp := cs.takeWhile (fun c => decide (isSpaceC c))
  let rest := cs.drop sp.length
  let signLen : Nat :=
    match rest.head? with
    | some c => if c.toNat = 45 ∨ c.toNat = 43 then 1 else 0
    | none => 0
  let neg : Bool :=
    match rest.head? with
    | some c => c.toNat = 45
    | none => false
  let digits := (rest.drop signLen).takeWhile (fun c => decide (isDigitC c))
  if digits.length = 0 then (0, 0)
  else
    let v : Int := (digitsVal digits : Nat)
    ((if neg then -v else v), sp.length + signLen + digits.length)

/-- A decoded header value: a string, a long integer, or a double.  The
double branch keeps the raw value text: its numeric content is produced
by sscanf's floating-point parse, which the NIF forwards bit-for-bit and
which this development does not compute with. -/
inductive TypedValue where
  | str : List Char → TypedValue
  | intv : Int → TypedValue
  | floatv : List Char → TypedValue
  deriving DecidableEq, Repr

/-- The value classifier of read_header (exfits_nif.c lines 211-235),
applied to the value field fits_parse_value extracted from a card:
a value starting with a quote is a string (both quotes stripped when the
text is at least 2 long and also ends with a quote, else kept raw); else
a value containing a decimal point is a double; else strtol runs and the
value is an integer exactly when endptr reached the terminating NUL,
falling back to the raw string. -/
def classifyValue (cs : List Char) : TypedValue :=
  if cs.head? = some quoteChar then
    if 2 ≤ cs.length ∧ cs.getLast? = some quoteChar then
      .str ((cs.drop 1).dropLast)
    else .str cs
  else if dotChar ∈ cs then .floatv cs
  else if (strtolModel cs).2 = cs.length then .intv (strtolModel cs).1
  else .str cs

/- ===== shared concrete objects for witnesses ===== -/

/-- A concrete 1x1 float image file. -/
def sampleFile : FitsFile :=
  { bitpix := -32, naxes := [1, 1], pixels := [0, 0, 128, 63], header := [] }

/-- A concrete file whose stored image has three axes. -/
def threeAxisFile : FitsFile :=
  { bitpix := -32, naxes := [1, 1, 1], pixels := [0, 0, 0, 0], header := [] }

/-- The character list 120. -/
def chars120 : List Char := [Char.ofNat 49, Char.ofNat 50, Char.ofNat 48]

/-- The character list '120' (quoted). -/
def quoted120 : List Char := [quoteChar] ++ chars120 ++ [quoteChar]

/- ===== spec-side predicates (stated from the specification's words) ===== -/

/-- The spec's description of string production for a quoted value:
exactly one leading and one trailing quote are stripped when both are
present, otherwise the raw text is kept. -/
def stripQuotesSpec (cs : List Char) : List Char :=
  if 2 ≤ cs.length ∧ cs.head? = some quoteChar ∧ cs.getLast? = some quoteChar then
    (cs.drop 1).dropLast
  else cs

/-- A header association holds no structural key. -/
def noStructuralKeys (hdr : List (String × HVal)) : Prop :=
  ∀ s ∈ skipKeys, assocLookup hdr s = none

/-- The entry shapes claim C10 describes as silently skipped: the key is
not an atom fitting the keyword buffer, or the value is neither a number
nor extractable by enif_get_string as a Latin-1 character list (in
particular, every binary value). -/
def nifSkippedEntry (e : ErlTerm × ErlTerm) : Prop :=
  enifGetAtom e.1 = none ∨ (erlIsNumber e.2 = false ∧ enifGetString e.2 = none)

instance (e : ErlTerm × ErlTerm) : Decidable (nifSkippedEntry e) := by
  unfold nifSkippedEntry; infer_instance

/- ===== helper lemmas ===== -/

theorem fsUpdate_self (fs : FS) (p : String) (f : FitsFile)
    (h : fsLookup fs p = some f) : fsUpdate fs p f = fs := by
  induction fs with
  | nil => simp [fsLookup] at h
  | cons e rest ih =>
    obtain ⟨q, g⟩ := e
    by_cases hq : q = p
    · subst hq
      simp [fsLookup] at h
      simp [fsUpdate, h]
    · simp [fsLookup, hq] at h
      simp [fsUpdate, hq, ih h]

theorem assocLookup_update_ne (hdr : List (String × HVal)) (k : String) (v : HVal)
    (s : String) (h : k ≠ s) : assocLookup (assocUpdate hdr k v) s = assocLookup hdr s := by
  induction hdr with
  | nil => simp [assocUpdate, assocLookup, h]
  | cons e rest ih =>
    obtain ⟨k0, v0⟩ := e
    by_cases hk : k0 = k
    · subst hk
      simp [assocUpdate, assocLookup, h]
    · simp [assocUpdate, assocLookup, hk, ih]

theorem fitsUpdateKey_ok_fields (f : FitsFile) (k : String) (v : HVal) (f2 : FitsFile)
    (h : fitsUpdateKey f k v = .ok f2) :
    f2.bitpix = f.bitpix ∧ f2.naxes = f.naxes ∧ f2.pixels = f.pixels ∧
      f2.header = assocUpdate f.header k v := by
  unfold fitsUpdateKey at h
  split at h
  · cases h; exact ⟨rfl, rfl, rfl, rfl⟩
  · cases h

theorem headerEntryStep_fields (f : FitsFile) (e : ErlTerm × ErlTerm) :
    (headerEntryStep f e).1.bitpix = f.bitpix ∧
      (headerEntryStep f e).1.naxes = f.naxes ∧
      (headerEntryStep f e).1.pixels = f.pixels := by
  unfold headerEntryStep
  cases hA : enifGetAtom e.1 with
  | none => exact ⟨rfl, rfl, rfl⟩
  | some k =>
    simp only []
    split
    · exact ⟨rfl, rfl, rfl⟩
    split
    · cases hL : enifGetLong e.2 with
      | some n =>
        cases hU : fitsUpdateKey f k (.hlong n) with
        | ok f2 =>
          have := fitsUpdateKey_ok_fields f k (.hlong n) f2 hU
          simp [hU, this.1, this.2.1, this.2.2.1]
        | error st => simp [hU]
      | none =>
        cases hD : enifGetDouble e.2 with
        | some p =>
          cases hU : fitsUpdateKey f k (.hdouble p) with
          | ok f2 =>
            have := fitsUpdateKey_ok_fields f k (.hdouble p) f2 hU
            simp [hU, this.1, this.2.1, this.2.2.1]
          | error st => simp [hU]
        | none => exact ⟨rfl, rfl, rfl⟩
    split
    · cases hS : enifGetString e.2 with
      | some cs =>
        cases hU : fitsUpdateKey f k (.hstr cs) with
        | ok f2 =>
          have := fitsUpdateKey_ok_fields f k (.hstr cs) f2 hU
          simp [hU, this.1, this.2.1, this.2.2.1]
        | error st => simp [hU]
      | none => exact ⟨rfl, rfl, rfl⟩
    · exact ⟨rfl, rfl, rfl⟩

theorem headerEntryStep_noStructural (f : FitsFile) (e : ErlTerm × ErlTerm)
    (h : noStructuralKeys f.header) : noStructuralKeys (headerEntryStep f e).1.header := by
  unfold headerEntryStep
  cases hA : enifGetAtom e.1 with
  | none => exact h
  | some k =>
    simp only []
    split
    · exact h
    rename_i hskip
    have hupd : ∀ v f2, fitsUpdateKey f k v = .ok f2 → noStructuralKeys f2.header := by
      intro v f2 hU
      intro s hs
      have hf := fitsUpdateKey_ok_fields f k v f2 hU
      rw [hf.2.2.2]
      have hk : k ≠ s := fun hks => hskip (hks ▸ hs)
      rw [assocLookup_update_ne _ _ _ _ hk]
      exact h s hs
    split
    · cases hL : enifGetLong e.2 with
      | some n =>
        cases hU : fitsUpdateKey f k (.hlong n) with
        | ok f2 => simpa [hU] using hupd _ _ hU
        | error st => simpa [hU] using h
      | none =>
        cases hD : enifGetDouble e.2 with
        | some p =>
          cases hU : fitsUpdateKey f k (.hdouble p) with
          | ok f2 => simpa [hU] using hupd _ _ hU
          | error st => simpa [hU] using h
        | none => exact h
    split
    · cases hS : enifGetString e.2 with
      | some cs =>
        cases hU : fitsUpdateKey f k (.hstr cs) with
        | ok f2 => simpa [hU] using hupd _ _ hU
        | error st => simpa [hU] using h
      | none => exact h
    · exact h

theorem foldl_apply_fields (es : List (ErlTerm × ErlTerm)) (f : FitsFile)
    (ws : List (String × Int)) :
    (es.foldl applyHeaderEntry (f, ws)).1.bitpix = f.bitpix ∧
      (es.foldl applyHeaderEntry (f, ws)).1.naxes = f.naxes ∧
      (es.foldl applyHeaderEntry (f, ws)).1.pixels = f.pixels ∧
      (noStructuralKeys f.header →
        noStructuralKeys (es.foldl applyHeaderEntry (f, ws)).1.header) := by
  induction es generalizing f ws with
  | nil => exact ⟨rfl, rfl, rfl, fun h => h⟩
  | cons e rest ih =>
    simp only [List.foldl_cons, applyHeaderEntry]
    have hstep := headerEntryStep_fields f e
    have ihr := ih (headerEntryStep f e).1 (ws ++ (headerEntryStep f e).2)
    refine ⟨?_, ?_, ?_, ?_⟩
    · rw [ihr.1, hstep.1]
    · rw [ihr.2.1, hstep.2.1]
    · rw [ihr.2.2.1, hstep.2.2]
    · intro h
      exact ihr.2.2.2 (headerEntryStep_noStructural f e h)

theorem foldl_apply_warnings (es : List (ErlTerm × ErlTerm)) (f : FitsFile)
    (ws : List (String × Int)) :
    (es.foldl applyHeaderEntry (f, ws)).1 = (es.foldl applyHeaderEntry (f, [])).1 ∧
      (es.foldl applyHeaderEntry (f, ws)).2 = ws ++ (es.foldl applyHeaderEntry (f, [])).2 := by
  induction es generalizing f ws with
  | nil => simp
  | cons e rest ih =>
    simp only [List.foldl_cons, applyHeaderEntry, List.nil_append]
    have h1 := ih (headerEntryStep f e).1 (ws ++ (headerEntryStep f e).2)
    have h2 := ih (headerEntryStep f e).1 (headerEntryStep f e).2
    refine ⟨h1.1.trans h2.1.symm, ?_⟩
    rw [h1.2, h2.2, List.append_assoc]

theorem sizeMismatch_not (w h : Int) (len : Nat) (hw : 0 < w) (hh : 0 < h)
    (hbound : w * h * 4 < 2 ^ 63) (hlen : len = (w * h * 4).toNat) :
    ¬ sizeMismatch w h len := by
  unfold sizeMismatch
  have h0 : (0 : Int) ≤ w * h * 4 := by positivity
  have h1 : w * h * 4 < 2 ^ 64 := lt_trans hbound (by norm_num)
  rw [Int.emod_eq_of_lt h0 h1]
  simp [hlen]

theorem pixLen (w h : Int) (len : Nat) (hw : 0 < w) (hh : 0 < h)
    (hlen : len = (w * h * 4).toNat) : 4 * (w * h).toNat = len := by
  have hnn : 0 ≤ w * h := by positivity
  omega

theorem write_image_ok_eval (fs : FS) (path : String) (data : List Nat) (w h : Int)
    (hp : path.length < 1024) (hfresh : fsLookup fs path = none)
    (hw : 0 < w) (hh : 0 < h) (hbound : w * h * 4 < 2 ^ 63)
    (hlen : data.length = (w * h * 4).toNat) :
    write_image fs path data w h (-32) =
      (.ok, (path, ⟨-32, [w, h], data, []⟩) :: fs) := by
  have hnple : ¬ 1024 ≤ path.length := by omega
  have hnom := sizeMismatch_not w h data.length hw hh hbound hlen
  have hax : ∀ a ∈ [w, h], (0 : Int) ≤ a := by
    intro a ha
    simp only [List.mem_cons, List.mem_singleton, List.not_mem_nil, or_false] at ha
    rcases ha with rfl | rfl <;> omega
  have hpix : 4 * (w * h).toNat = data.length := pixLen w h data.length hw hh hlen
  have htake : data.take (4 * (w * h).toNat) = data :=
    List.take_of_length_le (le_of_eq hpix.symm)
  simp [write_image, fitsCreateFile, fitsCreateImg, fitsWritePix, fsUpdate, emptyFits,
    hfresh, hnple, hnom, hax, le_of_eq hpix, htake]

theorem write_fits_file_ok_eval (fs : FS) (path : String) (data : List Nat) (w h : Int)
    (hdr : Option (List (ErlTerm × ErlTerm)))
    (hp : path.length < 1024) (hw : 0 < w) (hh : 0 < h) (hbound : w * h * 4 < 2 ^ 63)
    (hlen : data.length = (w * h * 4).toNat) :
    write_fits_file fs path data w h (-32) hdr =
      match hdr with
      | none => (.ok, (path, ⟨-32, [w, h], data, []⟩) :: fsRemove fs path, [])
      | some entries =>
          (.ok,
            (path, (entries.foldl applyHeaderEntry (⟨-32, [w, h], data, []⟩, [])).1)
              :: fsRemove fs path,
            (entries.foldl applyHeaderEntry (⟨-32, [w, h], data, []⟩, [])).2) := by
  have hnple : ¬ 1024 ≤ path.length := by omega
  have hnom := sizeMismatch_not w h data.length hw hh hbound hlen
  have hax : ∀ a ∈ [w, h], (0 : Int) ≤ a := by
    intro a ha
    simp only [List.mem_cons, List.mem_singleton, List.not_mem_nil, or_false] at ha
    rcases ha with rfl | rfl <;> omega
  have hpix : 4 * (w * h).toNat = data.length := pixLen w h data.length hw hh hlen
  have htake : data.take (4 * (w * h).toNat) = data :=
    List.take_of_length_le (le_of_eq hpix.symm)
  cases hdr with
  | none =>
    simp [write_fits_file, fitsCreateImg, fitsWritePix, fsUpdate, emptyFits,
      hnple, hnom, hax, le_of_eq hpix, htake]
  | some entries =>
    simp [write_fits_file, fitsCreateImg, fitsWritePix, fsUpdate, emptyFits,
      hnple, hnom, hax, le_of_eq hpix, htake]

theorem write_fits_file_none_eval (fs : FS) (path : String) (data : List Nat) (w h : Int)
    (hp : path.length < 1024) (hw : 0 < w) (hh : 0 < h) (hbound : w * h * 4 < 2 ^ 63)
    (hlen : data.length = (w * h * 4).toNat) :
    write_fits_file fs path data w h (-32) none =
      (.ok, (path, ⟨-32, [w, h], data, []⟩) :: fsRemove fs path, []) :=
  write_fits_file_ok_eval fs path data w h none hp hw hh hbound hlen

theorem write_fits_file_some_eval (fs : FS) (path : String) (data : List Nat) (w h : Int)
    (entries : List (ErlTerm × ErlTerm))
    (hp : path.length < 1024) (hw : 0 < w) (hh : 0 < h) (hbound : w * h * 4 < 2 ^ 63)
    (hlen : data.length = (w * h * 4).toNat) :
    write_fits_file fs path data w h (-32) (some entries) =
      (.ok,
        (path, (entries.foldl applyHeaderEntry (⟨-32, [w, h], data, []⟩, [])).1)
          :: fsRemove fs path,
        (entries.foldl applyHeaderEntry (⟨-32, [w, h], data, []⟩, [])).2) :=
  write_fits_file_ok_eval fs path data w h (some entries) hp hw hh hbound hlen

theorem headerEntryStep_skipped (f : FitsFile) (e : ErlTerm × ErlTerm)
    (h : nifSkippedEntry e) : headerEntryStep f e = (f, []) := by
  unfold headerEntryStep
  rcases h with h | ⟨hnum, hstr⟩
  · rw [h]
  · cases hA : enifGetAtom e.1 with
    | none => rfl
    | some k =>
      simp only []
      split
      · rfl
      rw [hnum]
      simp only [Bool.false_eq_true, if_false]
      split
      · rw [hstr]
      · rfl

/- ===== the claims ===== -/

/-- Claim C1: for every buffer of width*height 32-bit float samples and
every valid path (one the 1024-byte filename buffer accepts and at which
no file already exists, so that the create step can succeed), calling
write_image(path, buffer, width, height) — the 4-argument arity, BITPIX
-32 — and then read_image(path) succeeds and returns the original width,
the original height, and a byte-identical pixel buffer. -/
theorem C1_round_trip (fs : FS) (path : String) (data : List Nat) (w h : Int)
    (hp : path.length < 1024) (hfresh : fsLookup fs path = none)
    (hw : 0 < w) (hh : 0 < h) (hbound : w * h * 4 < 2 ^ 63)
    (hlen : data.length = (w * h * 4).toNat) :
    (write_image fs path data w h (-32)).1 = .ok ∧
      read_image (write_image fs path data w h (-32)).2 path = .rok w h data := by
  have heval := write_image_ok_eval fs path data w h hp hfresh hw hh hbound hlen
  rw [heval]
  refine ⟨rfl, ?_⟩
  have hnple : ¬ 1024 ≤ path.length := by omega
  have hpix : 4 * (w * h).toNat = data.length := pixLen w h data.length hw hh hlen
  have htake : data.take (4 * (w * h).toNat) = data :=
    List.take_of_length_le (le_of_eq hpix.symm)
  simp [read_image, fsLookup, hnple, le_of_eq hpix, htake]

/-- Witness for C1 at a concrete input: a fresh path and one 1x1 pixel. -/
theorem C1_round_trip_witness :
    (write_image [] ("img.fits") [0, 0, 128, 63] 1 1 (-32)).1 = .ok ∧
      read_image (write_image [] ("img.fits") [0, 0, 128, 63] 1 1 (-32)).2 ("img.fits") =
        .rok 1 1 [0, 0, 128, 63] :=
  C1_round_trip [] ("img.fits") [0, 0, 128, 63] 1 1 (by decide) (by decide)
    (by decide) (by decide) (by decide) (by decide)

/-- Counterexample to claim C2 as stated: with width 2^61, height 2 and
an empty buffer, the byte length (0) differs from width*height*4
(2^64) as mathematical integers, yet the C comparison converts the
signed long product to size_t — reducing it modulo 2^64 to 0 — so the
dimension test passes, no dimensions_mismatch is returned, and
fits_create_file runs: the filesystem is touched and a file is created
at the path. -/
theorem C2_dimension_check_counterexample :
    ((2 : Int) ^ 61 * 2 * 4 ≠ (0 : Int)) ∧
      (write_image [] ("p.fits") [] (2 ^ 61) 2 (-32)).1 ≠ .errAtom ("dimensions_mismatch") ∧
      fsLookup (write_image [] ("p.fits") [] (2 ^ 61) 2 (-32)).2 ("p.fits") ≠ none := by
  refine ⟨by decide, ?_, ?_⟩ <;> decide

/-- Claim C2 amended: for every call to write_image or write_fits_file
where the byte length of the pixel buffer differs from width*height*4
computed as the C code computes it — the signed long product converted
to size_t, i.e. reduced modulo 2^64 — the operation returns the
dimensions_mismatch error before any filesystem access, and no file is
created or modified (for realistic sizes, below 2^64 bytes, this is the
mathematical equation the claim states). -/
theorem C2_dimension_check_mod64 (fs : FS) (path : String) (data : List Nat)
    (w h : Int) (bitpix : Int) (hdr : Option (List (ErlTerm × ErlTerm)))
    (hp : path.length < 1024) (hmm : sizeMismatch w h data.length) :
    write_image fs path data w h bitpix = (.errAtom ("dimensions_mismatch"), fs) ∧
      write_fits_file fs path data w h bitpix hdr =
        (.errAtom ("dimensions_mismatch"), fs, []) := by
  have hnple : ¬ 1024 ≤ path.length := by omega
  constructor
  · simp [write_image, hnple, hmm]
  · simp [write_fits_file, hnple, hmm]

set_option maxRecDepth 4000 in
/-- Witness for the amended C2 at the spec's own concrete instance:
width 10, height 10 and a 399-byte buffer. -/
theorem C2_dimension_check_mod64_witness :
    write_image [] ("p.fits") (List.replicate 399 0) 10 10 (-32) =
        (.errAtom ("dimensions_mismatch"), []) ∧
      write_fits_file [] ("p.fits") (List.replicate 399 0) 10 10 (-32) none =
        (.errAtom ("dimensions_mismatch"), [], []) :=
  C2_dimension_check_mod64 [] ("p.fits") (List.replicate 399 0) 10 10 (-32) none
    (by decide) (by decide)

/-- Claim C3: the header card value classifier follows the stated
precedence — a value beginning with a quote is a string (one leading and
one trailing quote stripped exactly when both are present, else the raw
text); otherwise a value containing a decimal point is a
double-precision float (kept here as its raw text, since the numeric
sscanf parse is a float computation the NIF only forwards); otherwise
strtol runs and the value is an integer exactly when it consumed the
whole text, falling back to a string.  In particular the quoted value
'120' decodes to the string 120 while the unquoted 120 decodes to the
integer 120. -/
theorem C3_value_classification :
    (∀ cs : List Char, cs.head? = some quoteChar →
        classifyValue cs = .str (stripQuotesSpec cs)) ∧
      (∀ cs : List Char, cs.head? ≠ some quoteChar → dotChar ∈ cs →
        classifyValue cs = .floatv cs) ∧
      (∀ cs : List Char, cs.head? ≠ some quoteChar → dotChar ∉ cs →
        (strtolModel cs).2 = cs.length → classifyValue cs = .intv (strtolModel cs).1) ∧
      (∀ cs : List Char, cs.head? ≠ some quoteChar → dotChar ∉ cs →
        (strtolModel cs).2 ≠ cs.length → classifyValue cs = .str cs) ∧
      classifyValue quoted120 = .str chars120 ∧
      classifyValue chars120 = .intv 120 := by
  refine ⟨?_, ?_, ?_, ?_, by decide, by decide⟩
  · intro cs hq
    unfold classifyValue stripQuotesSpec
    rw [if_pos hq]
    by_cases h2 : 2 ≤ cs.length ∧ cs.getLast? = some quoteChar
    · rw [if_pos h2, if_pos ⟨h2.1, hq, h2.2⟩]
    · rw [if_neg h2, if_neg (fun hc => h2 ⟨hc.1, hc.2.2⟩)]
  · intro cs hq hdot
    unfold classifyValue
    rw [if_neg hq, if_pos hdot]
  · intro cs hq hdot hfull
    unfold classifyValue
    rw [if_neg hq, if_neg hdot, if_pos hfull]
  · intro cs hq hdot hfull
    unfold classifyValue
    rw [if_neg hq, if_neg hdot, if_neg hfull]

/-- Witness for C3: the first branch applied to the quoted value '120'
and the integer branch applied to the unquoted value 120. -/
theorem C3_value_classification_witness :
    classifyValue quoted120 = .str (stripQuotesSpec quoted120) ∧
      classifyValue chars120 = .intv (strtolModel chars120).1 :=
  ⟨C3_value_classification.1 quoted120 (by decide),
    C3_value_classification.2.2.1 chars120 (by decide) (by decide) (by decide)⟩

/-- Claim C4: entries whose key is one of the structural keys SIMPLE,
BITPIX, NAXIS, NAXIS1, NAXIS2, NAXIS3 or END are silently skipped by the
header loop — no update is attempted, no warning is recorded — and after
a full write_fits_file the stored structural values (the file's axis
list, hence NAXIS1/NAXIS2) always equal the declared image shape, with
no structural key ever present among the caller-written header cards. -/
theorem C4_structural_keys_protected :
    (∀ (f : FitsFile) (v : ErlTerm) (k : String), k ∈ skipKeys →
        headerEntryStep f (.atom k, v) = (f, [])) ∧
      (∀ (fs : FS) (path : String) (data : List Nat) (w h : Int)
          (entries : List (ErlTerm × ErlTerm)),
        path.length < 1024 → 0 < w → 0 < h → w * h * 4 < 2 ^ 63 →
        data.length = (w * h * 4).toNat →
        (write_fits_file fs path data w h (-32) (some entries)).1 = .ok ∧
          ∃ F, fsLookup (write_fits_file fs path data w h (-32) (some entries)).2.1 path =
              some F ∧ F.naxes = [w, h] ∧ noStructuralKeys F.header) := by
  constructor
  · intro f v k hk
    simp only [skipKeys, List.mem_cons, List.not_mem_nil, or_false] at hk
    rcases hk with rfl | rfl | rfl | rfl | rfl | rfl | rfl <;> rfl
  · intro fs path data w h entries hp hw hh hbound hlen
    rw [write_fits_file_some_eval fs path data w h entries hp hw hh hbound hlen]
    refine ⟨rfl, (entries.foldl applyHeaderEntry (⟨-32, [w, h], data, []⟩, [])).1, ?_, ?_, ?_⟩
    · simp [fsLookup]
    · exact (foldl_apply_fields entries ⟨-32, [w, h], data, []⟩ []).2.1
    · refine (foldl_apply_fields entries ⟨-32, [w, h], data, []⟩ []).2.2.2 ?_
      intro s hs
      rfl

/-- Witness for C4: the NAXIS1 entry is a no-op for the step function,
and a concrete 1x1 write_fits_file carrying a caller-supplied NAXIS1
entry returns ok with the stored shape equal to the declared one. -/
theorem C4_structural_keys_protected_witness :
    headerEntryStep sampleFile (.atom ("NAXIS1"), .int 7) = (sampleFile, []) ∧
      ((write_fits_file [] ("q.fits") [1, 2, 3, 4] 1 1 (-32)
          (some [(.atom ("NAXIS1"), .int 99)])).1 = .ok ∧
        ∃ F, fsLookup (write_fits_file [] ("q.fits") [1, 2, 3, 4] 1 1 (-32)
            (some [(.atom ("NAXIS1"), .int 99)])).2.1 ("q.fits") = some F ∧
          F.naxes = [1, 1] ∧ noStructuralKeys F.header) :=
  ⟨C4_structural_keys_protected.1 sampleFile (.int 7) ("NAXIS1") (by decide),
    C4_structural_keys_protected.2 [] ("q.fits") [1, 2, 3, 4] 1 1
      [(.atom ("NAXIS1"), .int 99)] (by decide) (by decide) (by decide) (by decide)
      (by decide)⟩

/-- Claim C5: the header-writing stage applies each entry independently:
(a) whenever the file exists, write_header_cards ends with ok, whatever
the entries are; (b) an entry whose fits_update_key call fails (here: an
extracted, non-structural key with an illegal keyword character and an
in-range integer value) only appends a key/status warning to the
diagnostic sink and leaves the file exactly as it was; (c) the file a
fold of entries produces never depends on the warnings already recorded,
so a failure never affects the application of the remaining keys. -/
theorem C5_per_key_isolation :
    (∀ (fs : FS) (path : String) (entries : List (ErlTerm × ErlTerm)) (f : FitsFile),
        path.length < 1024 → fsLookup fs path = some f →
        (write_header_cards fs path entries).1 = .ok) ∧
      (∀ (f : FitsFile) (k : String) (n : Int),
        k.length + 1 ≤ flenKeyword → k ∉ skipKeys →
        -(2 ^ 63) ≤ n → n < 2 ^ 63 → ¬(∀ c ∈ k.toList, validKeyChar c) →
        headerEntryStep f (.atom k, .int n) = (f, [(k, statusBadKeychar)])) ∧
      (∀ (es : List (ErlTerm × ErlTerm)) (f : FitsFile) (ws : List (String × Int)),
        (es.foldl applyHeaderEntry (f, ws)).1 = (es.foldl applyHeaderEntry (f, [])).1) := by
  refine ⟨?_, ?_, ?_⟩
  · intro fs path entries f hp hf
    have hnple : ¬ 1024 ≤ path.length := by omega
    simp [write_header_cards, hnple, hf]
  · intro f k n hk75 hskip hn1 hn2 hbad
    have hcond : -(2 ^ 63 : Int) ≤ n ∧ n < 2 ^ 63 := ⟨hn1, hn2⟩
    simp only [headerEntryStep, enifGetAtom, if_pos hk75]
    rw [if_neg hskip]
    simp only [erlIsNumber, enifGetLong, if_pos hcond]
    simp only [if_true, fitsUpdateKey]
    rw [if_neg hbad]
  · intro es f ws
    exact (foldl_apply_warnings es f ws).1

/-- Witness for C5: with an existing file, a map holding one valid and
one invalid key still returns ok, and the invalid key's step records one
warning with cfitsio's BAD_KEYCHAR status while leaving the file
untouched. -/
theorem C5_per_key_isolation_witness :
    (write_header_cards [(("p.fits"), sampleFile)] ("p.fits")
        [(.atom ("FOO"), .int 7), (.atom ("foo"), .int 1)]).1 = .ok ∧
      headerEntryStep sampleFile (.atom ("foo"), .int 1) =
        (sampleFile, [(("foo"), statusBadKeychar)]) :=
  ⟨C5_per_key_isolation.1 [(("p.fits"), sampleFile)] ("p.fits")
      [(.atom ("FOO"), .int 7), (.atom ("foo"), .int 1)] sampleFile (by decide) (by decide),
    C5_per_key_isolation.2.1 sampleFile ("foo") 1 (by decide) (by decide) (by decide)
      (by decide) (by decide)⟩

/-- Counterexample to claim C6 as stated: write_image with width 0 and
height 5 and the matching empty buffer does not fail with any
InvalidDimensions error — no such check exists in the code — but creates
the file and returns ok (the 0x5 image is legal for the library and zero
pixels are written). -/
theorem C6_invalid_dimensions_counterexample :
    write_image [] ("z.fits") [] 0 5 (-32) =
      (.ok, [(("z.fits"), ⟨-32, [0, 5], [], []⟩)]) := by
  decide

/-- Claim C6 amended: no InvalidDimensions validation exists.  A zero
dimension with the matching (empty) buffer succeeds outright, in both
write_image and write_fits_file; two negative dimensions pass the size
test (their product is positive) and the operation fails only inside the
library's create-image step with the numeric BAD_NAXES status — after
the file has been created on disk, which the error path leaves behind. -/
theorem C6_zero_and_negative_dimensions :
    (∀ (fs : FS) (path : String) (h : Int), path.length < 1024 →
        fsLookup fs path = none → 0 ≤ h →
        write_image fs path [] 0 h (-32) = (.ok, (path, ⟨-32, [0, h], [], []⟩) :: fs)) ∧
      (∀ (fs : FS) (path : String) (data : List Nat) (w h : Int), path.length < 1024 →
        fsLookup fs path = none → w < 0 → h < 0 → w * h * 4 < 2 ^ 63 →
        data.length = (w * h * 4).toNat →
        write_image fs path data w h (-32) =
          (.errCode statusBadNaxes, (path, emptyFits) :: fs)) ∧
      (∀ (fs : FS) (path : String) (h : Int), path.length < 1024 → 0 ≤ h →
        write_fits_file fs path [] 0 h (-32) none =
          (.ok, (path, ⟨-32, [0, h], [], []⟩) :: fsRemove fs path, [])) := by
  refine ⟨?_, ?_, ?_⟩
  · intro fs path h hp hfresh hh
    have hnple : ¬ 1024 ≤ path.length := by omega
    have hprod : (0 : Int) * h * 4 = 0 := by ring
    have hnom : ¬ sizeMismatch 0 h (0 : Nat) := by
      unfold sizeMismatch
      rw [hprod]
      decide
    have hax : ∀ a ∈ [(0 : Int), h], (0 : Int) ≤ a := by
      intro a ha
      simp only [List.mem_cons, List.mem_singleton, List.not_mem_nil, or_false] at ha
      rcases ha with rfl | rfl
      · exact le_refl 0
      · exact hh
    have hzero : ((0 : Int) * h).toNat = 0 := by
      rw [zero_mul]
      rfl
    simp [write_image, fitsCreateFile, fitsCreateImg, fitsWritePix, fsUpdate, emptyFits,
      hfresh, hnple, hnom, hax, hzero]
  · intro fs path data w h hp hfresh hw hh hbound hlen
    have hnple : ¬ 1024 ≤ path.length := by omega
    have hwh : (0 : Int) < w * h := mul_pos_of_neg_of_neg hw hh
    have h0 : (0 : Int) ≤ w * h * 4 := by linarith
    have h1 : w * h * 4 < 2 ^ 64 := lt_trans hbound (by norm_num)
    have hnom : ¬ sizeMismatch w h data.length := by
      unfold sizeMismatch
      rw [Int.emod_eq_of_lt h0 h1]
      simp [hlen]
    have hax : ¬ ∀ a ∈ [w, h], (0 : Int) ≤ a := by
      intro hall
      have := hall w (by simp)
      omega
    have hax2 : ¬ ((0 : Int) ≤ w ∧ (0 : Int) ≤ h) := by omega
    simp [write_image, fitsCreateFile, fitsCreateImg, fitsWritePix, fsUpdate,
      hfresh, hnple, hnom, hax, hax2]
  · intro fs path h hp hh
    have hnple : ¬ 1024 ≤ path.length := by omega
    have hprod : (0 : Int) * h * 4 = 0 := by ring
    have hnom : ¬ sizeMismatch 0 h (0 : Nat) := by
      unfold sizeMismatch
      rw [hprod]
      decide
    have hax : ∀ a ∈ [(0 : Int), h], (0 : Int) ≤ a := by
      intro a ha
      simp only [List.mem_cons, List.mem_singleton, List.not_mem_nil, or_false] at ha
      rcases ha with rfl | rfl
      · exact le_refl 0
      · exact hh
    have hzero : ((0 : Int) * h).toNat = 0 := by
      rw [zero_mul]
      rfl
    simp [write_fits_file, fitsCreateImg, fitsWritePix, fsUpdate, emptyFits,
      hnple, hnom, hax, hzero]

/-- Witness for the amended C6: the zero-dimension write succeeds, and
the all-negative 1x1 write fails with status 213 while the created file
remains on disk. -/
theorem C6_zero_and_negative_dimensions_witness :
    write_image [] ("z6.fits") [] 0 5 (-32) =
        (.ok, [(("z6.fits"), ⟨-32, [0, 5], [], []⟩)]) ∧
      write_image [] ("n6.fits") [9, 9, 9, 9] (-1) (-1) (-32) =
        (.errCode statusBadNaxes, [(("n6.fits"), emptyFits)]) :=
  ⟨C6_zero_and_negative_dimensions.1 [] ("z6.fits") 5 (by decide) (by decide) (by decide),
    C6_zero_and_negative_dimensions.2.1 [] ("n6.fits") [9, 9, 9, 9] (-1) (-1)
      (by decide) (by decide) (by decide) (by decide) (by decide) (by decide)⟩

/-- Counterexample to claim C7 as stated: write_image has no remove()
call, so a write to an already-existing file does not succeed — the
library's create step fails with FILE_NOT_CREATED (105) and the old file
is left as it was. -/
theorem C7_no_removal_counterexample :
    write_image [(("old.fits"), sampleFile)] ("old.fits") [9, 9, 9, 9] 1 1 (-32) =
      (.errCode statusFileNotCreated, [(("old.fits"), sampleFile)]) := by
  decide

/-- Claim C7 amended: only write_fits_file removes a pre-existing file of
the requested name before creating the new one; for it, a write to an
already-existing path succeeds and leaves only the newly written file.
write_image performs no removal and fails with the library's
FILE_NOT_CREATED status when the path already exists. -/
theorem C7_write_fits_file_overwrites (fs : FS) (path : String) (data : List Nat)
    (w h : Int) (f0 : FitsFile)
    (hp : path.length < 1024) (hexist : fsLookup fs path = some f0)
    (hw : 0 < w) (hh : 0 < h) (hbound : w * h * 4 < 2 ^ 63)
    (hlen : data.length = (w * h * 4).toNat) :
    write_fits_file fs path data w h (-32) none =
        (.ok, (path, ⟨-32, [w, h], data, []⟩) :: fsRemove fs path, []) ∧
      fsLookup ((path, ⟨-32, [w, h], data, []⟩) :: fsRemove fs path) path =
        some ⟨-32, [w, h], data, []⟩ := by
  refine ⟨write_fits_file_none_eval fs path data w h hp hw hh hbound hlen, ?_⟩
  simp [fsLookup]

/-- Witness for the amended C7: overwriting a concrete existing 1x1 file
succeeds and the path now holds exactly the new pixels. -/
theorem C7_write_fits_file_overwrites_witness :
    write_fits_file [(("old.fits"), sampleFile)] ("old.fits") [9, 9, 9, 9] 1 1 (-32) none =
        (.ok, [(("old.fits"), ⟨-32, [1, 1], [9, 9, 9, 9], []⟩)], []) ∧
      fsLookup [(("old.fits"), ⟨-32, [1, 1], [9, 9, 9, 9], []⟩)] ("old.fits") =
        some ⟨-32, [1, 1], [9, 9, 9, 9], []⟩ :=
  C7_write_fits_file_overwrites [(("old.fits"), sampleFile)] ("old.fits") [9, 9, 9, 9]
    1 1 sampleFile (by decide) (by decide) (by decide) (by decide) (by decide) (by decide)

/-- Claim C8, evaluated on the code: the type dispatch works as claimed
for integer (signed long), float (double) and character-list (string)
values, but a binary value — ordinary Elixir text — is silently dropped:
enif_get_string cannot extract a binary, so no string update is ever
attempted for it, contradicting the claim (and the code's own comment
that the string value could be binary or char list). -/
theorem C8_type_dispatch_eval :
    headerEntryStep sampleFile (.atom ("FOO"), .int 7) =
        ({ sampleFile with header := [(("FOO"), .hlong 7)] }, []) ∧
      headerEntryStep sampleFile (.atom ("FOO"), .float 123) =
        ({ sampleFile with header := [(("FOO"), .hdouble 123)] }, []) ∧
      headerEntryStep sampleFile (.atom ("FOO"), .list [.int 66, .int 65, .int 82]) =
        ({ sampleFile with header := [(("FOO"), .hstr [66, 65, 82])] }, []) ∧
      headerEntryStep sampleFile (.atom ("FOO"), .binary [66, 65, 82]) =
        (sampleFile, []) := by
  refine ⟨?_, ?_, ?_, ?_⟩ <;> decide

/-- Claim C9: reading a file whose stored image has an axis count other
than exactly 2 fails — the NIF returns the error tuple (whose numeric
payload is the still-zero cfitsio status) and no pixel buffer. -/
theorem C9_non_two_dimensional (fs : FS) (path : String) (f : FitsFile)
    (hp : path.length < 1024) (hf : fsLookup fs path = some f)
    (hn : f.naxes.length ≠ 2) : read_image fs path = .rerr 0 := by
  have hnple : ¬ 1024 ≤ path.length := by omega
  cases hax : f.naxes with
  | nil => simp [read_image, hnple, hf, hax]
  | cons a t =>
    cases t with
    | nil => simp [read_image, hnple, hf, hax]
    | cons b t2 =>
      cases t2 with
      | nil =>
        rw [hax] at hn
        simp at hn
      | cons c t3 => simp [read_image, hnple, hf, hax]

/-- Witness for C9: a concrete three-axis file reads back as an error
and no buffer. -/
theorem C9_non_two_dimensional_witness :
    read_image [(("cube.fits"), threeAxisFile)] ("cube.fits") = .rerr 0 :=
  C9_non_two_dimensional [(("cube.fits"), threeAxisFile)] ("cube.fits") threeAxisFile
    (by decide) (by decide) (by decide)

/-- Claim C10: a mapping entry whose key is not an atom fitting the
keyword buffer, or whose value is neither a number nor a string
extractable by enif_get_string as a Latin-1 character list (in
particular every binary value), is silently skipped: the step leaves the
file untouched and records nothing, and a call whose entries are all of
this shape leaves the file exactly as it was, emits no warnings, and
still returns ok. -/
theorem C10_non_marshallable_entries_skipped :
    (∀ (f : FitsFile) (e : ErlTerm × ErlTerm), nifSkippedEntry e →
        headerEntryStep f e = (f, [])) ∧
      (∀ (fs : FS) (path : String) (f : FitsFile) (entries : List (ErlTerm × ErlTerm)),
        path.length < 1024 → fsLookup fs path = some f →
        (∀ e ∈ entries, nifSkippedEntry e) →
        write_header_cards fs path entries = (.ok, fs, [])) := by
  have hfold : ∀ (entries : List (ErlTerm × ErlTerm)) (f : FitsFile),
      (∀ e ∈ entries, nifSkippedEntry e) →
      entries.foldl applyHeaderEntry (f, []) = (f, []) := by
    intro entries
    induction entries with
    | nil => intro f _; rfl
    | cons e rest ih =>
      intro f hall
      have hstep := headerEntryStep_skipped f e (hall e (by simp))
      simp only [List.foldl_cons, applyHeaderEntry, hstep, List.nil_append]
      exact ih f (fun x hx => hall x (by simp [hx]))
  constructor
  · exact headerEntryStep_skipped
  · intro fs path f entries hp hf hall
    have hnple : ¬ 1024 ≤ path.length := by omega
    simp only [write_header_cards, if_neg hnple]
    rw [hf]
    simp only [hfold entries f hall]
    rw [fsUpdate_self fs path f hf]

/-- Witness for C10: a map with a non-atom key, a binary value, a tuple
value and an over-long atom key leaves a concrete file untouched, emits
no warnings, and returns ok. -/
theorem C10_non_marshallable_entries_skipped_witness :
    write_header_cards [(("p10.fits"), sampleFile)] ("p10.fits")
        [(.int 3, .int 5),
          (.atom ("FOO"), .binary [66, 65, 82]),
          (.atom ("BAR"), .other),
          (.atom ("XXXXXXXXXXXXXXXXXXXXXXXXXXXXXXXXXXXXXXXXXXXXXXXXXXXXXXXXXXXXXXXXXXXXXXXXXXXXXXXX"),
            .int 1)] =
      (.ok, [(("p10.fits"), sampleFile)], []) :=
  C10_non_marshallable_entries_skipped.2 [(("p10.fits"), sampleFile)] ("p10.fits")
    sampleFile
    [(.int 3, .int 5),
      (.atom ("FOO"), .binary [66, 65, 82]),
      (.atom ("BAR"), .other),
      (.atom ("XXXXXXXXXXXXXXXXXXXXXXXXXXXXXXXXXXXXXXXXXXXXXXXXXXXXXXXXXXXXXXXXXXXXXXXXXXXXXXXX"),
        .int 1)]
    (by decide) (by decide) (by decide)

end ExFITS
